import Mathlib

/-!
Verification development for the Business Reputation Insights Analyzer.

The repository is a small Python review-analysis tool:
  - `preprocess.py` : `clean_text` (four regex passes) and `preprocess_reviews`;
  - `data_fetcher.py` : `fetch_google_maps_reviews` (SerpAPI call);
  - `analysis_pipeline.py` : `add_sentiment`, `extract_themes`,
    `generate_recommendations`, `compute_basic_stats`.

Shallow embedding conventions used throughout:
  - Python runtime values (JSON-decoded data, DataFrame cells) are the mutual
    inductive `PyVal` / `PyList` / `PyDict` below; its recursion is mutual so
    that every function on it reduces in the kernel.
  - A pandas DataFrame is a `Frame`: a list of column names plus rows given as
    association lists from column name to cell value.
  - External black boxes (the HTTP GET, the HuggingFace sentiment pipeline,
    the OpenAI chat completion, `json.loads`) are oracle parameters; all code
    *around* them is embedded from the source.
  - A raised Python exception is `Except.error` with a message describing the
    exception; numeric model scores are carried opaquely as `PyVal`.
-/

namespace BRIA

/- Python values as they occur in this program: JSON-decoded data and
DataFrame cells.  Floats are not needed by any claim and are omitted;
containers are mutual (not nested) inductives so that recursive functions
are structural and kernel-reducible. -/
mutual

inductive PyVal where
  | none
  | bool (b : Bool)
  | int (n : Int)
  | str (s : String)
  | list (xs : PyList)
  | dict (kvs : PyDict)
deriving DecidableEq

inductive PyList where
  | nil
  | cons (v : PyVal) (tl : PyList)
deriving DecidableEq

inductive PyDict where
  | nil
  | cons (k : String) (v : PyVal) (tl : PyDict)
deriving DecidableEq

end

def PyList.toList : PyList → List PyVal
  | .nil => []
  | .cons v tl => v :: PyList.toList tl

def PyList.ofList : List PyVal → PyList
  | [] => .nil
  | v :: vs => .cons v (PyList.ofList vs)

def PyDict.ofList : List (String × PyVal) → PyDict
  | [] => .nil
  | (k, v) :: tl => .cons k v (PyDict.ofList tl)

/-- Key lookup in a Python dict (first match; duplicate keys do not occur in
the values this program builds). -/
def PyDict.lookup : PyDict → String → Option PyVal
  | .nil, _ => Option.none
  | .cons k v tl, key => if k == key then some v else PyDict.lookup tl key

/-- Python's `d.get(key, default)`. -/
def pyGet (d : PyDict) (key : String) (dflt : PyVal) : PyVal :=
  match d.lookup key with
  | some v => v
  | Option.none => dflt

/-- Python truthiness of a value (`bool(v)`), as used by `if not reviews:`
and by `a or b`. -/
def pyTruthy : PyVal → Bool
  | .none => false
  | .bool b => b
  | .int n => n != 0
  | .str s => s != ""
  | .list .nil => false
  | .list _ => true
  | .dict .nil => false
  | .dict _ => true

mutual

/-- Python `repr`, restricted to the values above.  Strings are rendered with
single quotes and no escaping — the program never builds values whose repr
needs escaping. -/
def pyRepr : PyVal → String
  | .none => "None"
  | .bool true => "True"
  | .bool false => "False"
  | .int n => toString n
  | .str s => "\x27" ++ s ++ "\x27"
  | .list xs => "[" ++ pyReprList xs ++ "]"
  | .dict kvs => "\x7b" ++ pyReprDict kvs ++ "\x7d"

def pyReprList : PyList → String
  | .nil => ""
  | .cons v .nil => pyRepr v
  | .cons v tl => pyRepr v ++ ", " ++ pyReprList tl

def pyReprDict : PyDict → String
  | .nil => ""
  | .cons k v .nil => "\x27" ++ k ++ "\x27: " ++ pyRepr v
  | .cons k v tl => "\x27" ++ k ++ "\x27: " ++ pyRepr v ++ ", " ++ pyReprDict tl

end

/-- Python `str(v)`, the conversion used by `.astype(str)` and by f-string
interpolation: identity on strings, `repr` on everything else. -/
def pyStr (v : PyVal) : String :=
  match v with
  | .str s => s
  | _ => pyRepr v

/-! ## `preprocess.py` -/

/-- Python whitespace: exactly the characters matched by `\s` in a `str`
regex and stripped by `str.strip()` (CPython's `Py_UNICODE_ISSPACE`). -/
def isPySpace (c : Char) : Bool :=
  [9, 10, 11, 12, 13, 28, 29, 30, 31, 32, 133, 160, 5760, 8192, 8193, 8194, 8195,
   8196, 8197, 8198, 8199, 8200, 8201, 8202, 8232, 8233, 8239, 8287, 12288].contains c.toNat

def charLe (a b : Char) : Bool := decide (a.toNat ≤ b.toNat)

/-- The character class kept by the second pass of `clean_text`
(`[^A-Za-z0-9\s\.,!?']` is replaced by a space; 39 is the apostrophe). -/
def allowedChar (c : Char) : Bool :=
  (charLe 'A' c && charLe c 'Z') || (charLe 'a' c && charLe c 'z') ||
  (charLe '0' c && charLe c '9') || isPySpace c ||
  c == '.' || c == ',' || c == '!' || c == '?' || c.toNat == 39

/-- One match attempt of `http\S+|www\.\S+` at the head of the text:
the literal prefix, then a greedy, non-empty run of non-whitespace.
Returns the remainder after the match. -/
def tryUrl : List Char → Option (List Char)
  | 'h' :: 't' :: 't' :: 'p' :: c :: rest =>
    if isPySpace c then Option.none
    else some ((c :: rest).dropWhile (fun d => !(isPySpace d)))
  | 'w' :: 'w' :: 'w' :: '.' :: c :: rest =>
    if isPySpace c then Option.none
    else some ((c :: rest).dropWhile (fun d => !(isPySpace d)))
  | _ => Option.none

/-- `re.sub(r"http\S+|www\.\S+", "", text)` scanning left to right with
non-overlapping matches; fuel makes the recursion structural, and
`urlSub` supplies fuel `length l`, which is always sufficient because every
match consumes at least one character. -/
def urlSubFuel : Nat → List Char → List Char
  | 0, l => l
  | _ + 1, [] => []
  | fuel + 1, c :: cs =>
    match tryUrl (c :: cs) with
    | some rest => urlSubFuel fuel rest
    | Option.none => c :: urlSubFuel fuel cs

def urlSub (l : List Char) : List Char := urlSubFuel l.length l

/-- `re.sub(r"[^A-Za-z0-9\s\.,!?']", " ", text)` acts independently on each
character. -/
def keepAllowed (c : Char) : Char := if allowedChar c then c else ' '

/-- `str.lower()` on one character.  After the second pass the text only
contains ASCII letters, digits, whitespace and `.,!?'`, on which Python's
Unicode lowercasing coincides with ASCII lowercasing. -/
def pyLowerChar (c : Char) : Char :=
  if charLe 'A' c && charLe c 'Z' then Char.ofNat (c.toNat + 32) else c

/-- `re.sub(r"\s+", " ", text)`: every maximal run of whitespace becomes one
space.  The flag records whether the previous character was whitespace. -/
def collapseWsAux : Bool → List Char → List Char
  | _, [] => []
  | true, c :: cs =>
    if isPySpace c then collapseWsAux true cs else c :: collapseWsAux false cs
  | false, c :: cs =>
    if isPySpace c then ' ' :: collapseWsAux true cs else c :: collapseWsAux false cs

/-- `str.strip()`: drop whitespace from both ends. -/
def pyStrip (l : List Char) : List Char :=
  (l.dropWhile isPySpace).rdropWhile isPySpace

/-- The four passes of `clean_text` (preprocess.py lines 13-25) on the
character list of an input string. -/
def cleanData (l : List Char) : List Char :=
  pyStrip (collapseWsAux false (((urlSub l).map keepAllowed).map pyLowerChar))

/-- `clean_text` on a string argument (the `isinstance` guard passes). -/
def clean_text (s : String) : String := String.mk (cleanData s.data)

/-- `clean_text` as written (preprocess.py lines 6-25): a non-`str` argument
returns `""` via the `isinstance` guard. -/
def clean_text_py (v : PyVal) : String :=
  match v with
  | .str s => clean_text s
  | _ => ""

/-- A pandas DataFrame: ordered column names, and rows as association lists
from column name to cell. -/
structure Frame where
  cols : List String
  rows : List (List (String × PyVal))
deriving DecidableEq

/-- Cell access within a row; rows always carry their frame's columns. -/
def rowGet (r : List (String × PyVal)) (name : String) : PyVal :=
  (List.lookup name r).getD PyVal.none

/-- Values of one column, top to bottom (`df[name].tolist()`). -/
def colVals (f : Frame) (name : String) : List PyVal :=
  f.rows.map (fun r => rowGet r name)

/-- `df[name] = vals`: overwrite the column if present, else append it. -/
def setColumn (f : Frame) (name : String) (vals : List PyVal) : Frame :=
  if f.cols.contains name then
    ⟨f.cols,
     List.zipWith (fun r v => r.map (fun kv => if kv.1 == name then (name, v) else kv)) f.rows vals⟩
  else
    ⟨f.cols ++ [name],
     List.zipWith (fun r v => r ++ [(name, v)]) f.rows vals⟩

/-- `preprocess_reviews` (preprocess.py lines 28-38): check for the `text`
column, then `df["clean_text"] = df["text"].astype(str).apply(clean_text)`.
Note the `astype(str)` conversion happens before `clean_text` runs. -/
def preprocess_reviews (df : Frame) : Except String Frame :=
  if df.cols.contains "text" then
    .ok (setColumn df "clean_text"
      (df.rows.map (fun r => PyVal.str (clean_text_py (PyVal.str (pyStr (rowGet r "text")))))))
  else
    .error "ValueError: Input DataFrame must have a \x27text\x27 column"

/-! ## `data_fetcher.py` -/

/-- A `requests` response: HTTP status plus the JSON-decoded body. -/
structure HttpResponse where
  status : Nat
  body : PyVal

/-- Result of a fetch: the returned frame or the raised exception, plus the
number of outbound HTTP requests that were made. -/
structure FetchResult where
  result : Except String Frame
  requests : Nat

def reviewColumns : List String := ["author", "rating", "date", "text"]

/-- One row of the fetched frame (data_fetcher.py lines 43-48), including the
Python `or` between the `snippet` and `review` fields. -/
def reviewRow (rev : PyDict) : List (String × PyVal) :=
  [("author", pyGet rev "user" (.str "")),
   ("rating", pyGet rev "rating" .none),
   ("date", pyGet rev "date" (.str "")),
   ("text",
     let s := pyGet rev "snippet" (.str "")
     if pyTruthy s then s else pyGet rev "review" (.str ""))]

/-- The `for rev in reviews` loop: every element must be a dict (anything
else has no `.get` and raises `AttributeError`). -/
def reviewRows : List PyVal → Option (List (List (String × PyVal)))
  | [] => some []
  | .dict d :: rest => (reviewRows rest).map (fun rs => reviewRow d :: rs)
  | _ => Option.none

/-- `fetch_google_maps_reviews` (data_fetcher.py lines 10-51).  `cfgKey` is
the configured `SERPAPI_API_KEY`, `http` the oracle for `requests.get`
(taking the query parameters), `api_key` the optional argument
(Python default `None`). -/
def fetch_google_maps_reviews (cfgKey : String)
    (http : List (String × String) → HttpResponse)
    (place_id : String) (api_key : Option String) (hl : String) : FetchResult :=
  let key := match api_key with
    | some k => k
    | Option.none => cfgKey
  if key == "" then
    ⟨.error "ValueError: SERPAPI_API_KEY is not set. Please configure it in .env or config.py", 0⟩
  else
    let r := http [("engine", "google_maps_reviews"), ("place_id", place_id),
                   ("hl", hl), ("api_key", key)]
    if 400 ≤ r.status ∧ r.status < 600 then
      ⟨.error "HTTPError", 1⟩
    else
      match r.body with
      | .dict data =>
        let reviews := pyGet data "reviews" (.list .nil)
        if pyTruthy reviews then
          match reviews with
          | .list revs =>
            match reviewRows revs.toList with
            | some rows => ⟨.ok ⟨reviewColumns, rows⟩, 1⟩
            | Option.none => ⟨.error "AttributeError: no attribute \x27get\x27", 1⟩
          | _ => ⟨.error "TypeError: object is not iterable", 1⟩
        else
          ⟨.ok ⟨reviewColumns, []⟩, 1⟩
      | _ => ⟨.error "AttributeError: no attribute \x27get\x27", 1⟩

/-! ## `analysis_pipeline.py` -/

/-- Substring test, Python's `needle in hay`. -/
def strContains (hay needle : String) : Bool := decide (needle.data <:+: hay.data)

def pyLower (s : String) : String := String.mk (s.data.map pyLowerChar)

/-- The label mapping of `add_sentiment` (analysis_pipeline.py lines 45-53):
lowercase the raw model label, then substring-match `pos` / `neg`. -/
def map_label (label : String) : String :=
  let l := pyLower label
  if strContains l "pos" then "positive"
  else if strContains l "neg" then "negative"
  else "neutral"

/-- `add_sentiment` (analysis_pipeline.py lines 33-61).  The HuggingFace
pipeline is the oracle `classify`, returning one `(label, score)` pair per
input; the score is carried opaquely. -/
def add_sentiment (classify : List PyVal → List (String × PyVal)) (df : Frame) :
    Except String Frame :=
  if df.cols.contains "clean_text" then
    let sentiments := classify (colVals df "clean_text")
    let labels := sentiments.map (fun p => PyVal.str (map_label p.1))
    let scores := sentiments.map (fun p => p.2)
    .ok (setColumn (setColumn df "sentiment" labels) "sentiment_score" scores)
  else
    .error "KeyError: \x27clean_text\x27"

/-- The theme-extraction prompt (analysis_pipeline.py lines 76-90) around the
joined sample text. -/
def themesPrompt (joined_text : String) : String :=
  "\nYou are analyzing customer reviews for a local business.\n\nReviews:\n"
  ++ joined_text ++
  "\n\n1. Identify the main recurring positive themes (e.g., \x27friendly staff\x27, \x27good ambience\x27).\n2. Identify the main recurring negative themes (e.g., \x27slow service\x27, \x27high prices\x27).\n\nReturn your answer strictly in JSON with the following structure:\n\x7b\n  \"positive\": [\"theme1\", \"theme2\", ...],\n  \"negative\": [\"theme1\", \"theme2\", ...]\n\x7d\n"

/-- `"\n".join(sample_df["clean_text"].tolist())` over the first
`max_reviews` rows; the cells are always strings here. -/
def joinedCleanText (df : Frame) (max_reviews : Nat) : String :=
  String.intercalate "\n" ((df.rows.take max_reviews).map (fun r => pyStr (rowGet r "clean_text")))

/-- Response handling of `extract_themes` (analysis_pipeline.py lines
95-103): try `json.loads`; a parse failure, or a parsed value that is not a
dict (the `isinstance` check raises `ValueError` into the same `except`),
falls back to the dict carrying the raw text.  `parse` is the oracle for
`json.loads`, `Option.none` meaning it raised. -/
def themes_of_raw (parse : String → Option PyVal) (raw : String) : PyVal :=
  match parse raw with
  | some (PyVal.dict kvs) => PyVal.dict kvs
  | _ => PyVal.dict (PyDict.ofList
      [("positive", .list .nil), ("negative", .list .nil), ("raw", .str raw)])

/-- `extract_themes` (analysis_pipeline.py lines 64-103).  `llm` is the
oracle for `_call_llm` (prompt in, stripped response text out). -/
def extract_themes (llm : String → String) (parse : String → Option PyVal)
    (df : Frame) (max_reviews : Nat) : PyVal :=
  themes_of_raw parse (llm (themesPrompt (joinedCleanText df max_reviews)))

/-- `df[col].value_counts().to_dict()`: occurrence counts of the distinct
non-missing values (pandas drops NaN/None by default).  Pandas orders by
descending count, but Python dict equality ignores order, so counts are
recorded in first-occurrence order. -/
def value_counts (vals : List PyVal) : List (PyVal × Nat) :=
  (vals.filter (fun v => !(v == PyVal.none))).foldl (fun acc v =>
    if acc.any (fun p => p.1 == v) then
      acc.map (fun p => if p.1 == v then (p.1, p.2 + 1) else p)
    else acc ++ [(v, 1)]) []

/-- F-string rendering of a `value_counts().to_dict()` mapping. -/
def countsRepr (counts : List (PyVal × Nat)) : String :=
  "\x7b" ++ String.intercalate ", " (counts.map (fun p => pyRepr p.1 ++ ": " ++ toString p.2)) ++ "\x7d"

/-- The recommendation prompt (analysis_pipeline.py lines 136-156): the
f-string interpolates the review count, the sentiment-count dict and the two
theme values via Python `str()`. -/
def recsPrompt (total_reviews : Nat) (sentiment_counts : List (PyVal × Nat))
    (pos neg : PyVal) : String :=
  "\nYou are an expert operations consultant.\n\nA local business has "
  ++ toString total_reviews ++
  " reviews on Google Maps.\n\nSentiment distribution:\n"
  ++ countsRepr sentiment_counts ++
  "\n\nPositive themes:\n" ++ pyStr pos ++
  "\n\nNegative themes:\n" ++ pyStr neg ++
  "\n\nBased on this information:\n- Suggest 5–10 highly actionable operational improvements.\n- Be specific (e.g., \x27add one more staff member during evening peak hours\x27, not just \x27improve service\x27).\n- Group them under short headings if possible.\n\nRespond in bullet points.\n"

/-- `generate_recommendations` (analysis_pipeline.py lines 129-159):
`len(df)`, then `df["sentiment"].value_counts()` (KeyError if absent), then
`themes.get('positive', [])` / `themes.get('negative', [])` (AttributeError
if `themes` is not a dict), then one LLM call whose text is returned. -/
def generate_recommendations (llm : String → String) (df : Frame) (themes : PyVal) :
    Except String String :=
  let total_reviews := df.rows.length
  if df.cols.contains "sentiment" then
    let sentiment_counts := value_counts (colVals df "sentiment")
    match themes with
    | .dict kvs =>
      .ok (llm (recsPrompt total_reviews sentiment_counts
        (pyGet kvs "positive" (.list .nil)) (pyGet kvs "negative" (.list .nil))))
    | _ => .error "AttributeError: no attribute \x27get\x27"
  else
    .error "KeyError: \x27sentiment\x27"

/-- `avg_rating` is Python `None` when there is no rating column, float NaN
when the column exists but holds no numeric value (pandas `mean` of an empty
or all-missing column), and a number otherwise. -/
inductive AvgRating where
  | none
  | nan
  | val (q : Rat)
deriving DecidableEq

/-- `float(df["rating"].mean())`: missing cells (`None`) are skipped, bools
count as 1/0 (they subclass int), any other non-numeric cell raises, and no
numeric cell at all gives NaN. -/
def ratingMean (cells : List PyVal) : Except String AvgRating :=
  if cells.any (fun v => match v with
      | .int _ => false | .bool _ => false | .none => false | _ => true) then
    .error "TypeError: could not convert rating to numeric"
  else
    let ns := cells.filterMap (fun v => match v with
      | .int n => some n
      | .bool true => some 1
      | .bool false => some 0
      | _ => Option.none)
    if ns.isEmpty then .ok .nan
    else .ok (.val ((ns.foldl (fun a b => a + b) 0 : Int) / (ns.length : Rat)))

structure Stats where
  total_reviews : Nat
  avg_rating : AvgRating
  sentiment_counts : List (PyVal × Nat)
deriving DecidableEq

/-- `compute_basic_stats` (analysis_pipeline.py lines 162-171): length, then
the rating mean guarded by `"rating" in df.columns`, then
`df["sentiment"].value_counts().to_dict()` — a KeyError if the sentiment
column is absent. -/
def compute_basic_stats (df : Frame) : Except String Stats :=
  let total := df.rows.length
  match (if df.cols.contains "rating" then ratingMean (colVals df "rating") else .ok AvgRating.none) with
  | .error e => .error e
  | .ok avg =>
    if df.cols.contains "sentiment" then
      .ok ⟨total, avg, value_counts (colVals df "sentiment")⟩
    else
      .error "KeyError: \x27sentiment\x27"

/-! ## Object identity

`preprocess_reviews` and `add_sentiment` both begin with `df = df.copy()`;
to reason about whether the *argument object* is mutated we run them on a
heap of frame objects addressed by reference. -/

structure Heap where
  frames : List Frame
deriving DecidableEq

def Heap.get (h : Heap) (r : Nat) : Frame := h.frames.getD r ⟨[], []⟩

/-- Run a DataFrame-to-DataFrame step the way both pipeline steps are
written: allocate a fresh copy of the argument (`df = df.copy()`), perform
all column writes on the copy, return its reference. -/
def runCopying (body : Frame → Except String Frame) (h : Heap) (r : Nat) :
    Except String (Heap × Nat) :=
  let rc := h.frames.length
  let h1 : Heap := ⟨h.frames ++ [h.get r]⟩
  match body (h1.get rc) with
  | .ok f2 => .ok (⟨h1.frames.set rc f2⟩, rc)
  | .error e => .error e

def preprocess_reviews_st (h : Heap) (r : Nat) : Except String (Heap × Nat) :=
  runCopying preprocess_reviews h r

def add_sentiment_st (classify : List PyVal → List (String × PyVal))
    (h : Heap) (r : Nat) : Except String (Heap × Nat) :=
  runCopying (add_sentiment classify) h r

/-! ## Character-level lemmas -/

theorem toNat_pyLowerChar_upper (c : Char) (h : (charLe 'A' c && charLe c 'Z') = true) :
    (pyLowerChar c).toNat = c.toNat + 32 := by
  obtain ⟨h1, h2⟩ := Bool.and_eq_true_iff.mp h
  have hZ : c.toNat ≤ 90 := of_decide_eq_true h2
  have hv : (c.toNat + 32).isValidChar := Or.inl (by omega)
  unfold pyLowerChar
  rw [if_pos h]
  unfold Char.ofNat
  rw [dif_pos hv]
  rfl

theorem pyLowerChar_fix (c : Char) (h : (charLe 'A' c && charLe c 'Z') = false) :
    pyLowerChar c = c := by
  unfold pyLowerChar
  rw [h]
  rfl

theorem pyLowerChar_idem (c : Char) : pyLowerChar (pyLowerChar c) = pyLowerChar c := by
  rcases hb : (charLe 'A' c && charLe c 'Z') with _ | _
  · rw [pyLowerChar_fix c hb, pyLowerChar_fix c hb]
  · have ht := toNat_pyLowerChar_upper c hb
    obtain ⟨h1, h2⟩ := Bool.and_eq_true_iff.mp hb
    have hA : 65 ≤ c.toNat := of_decide_eq_true h1
    apply pyLowerChar_fix
    have hz : charLe (pyLowerChar c) 'Z' = false := by
      apply decide_eq_false
      show ¬ (pyLowerChar c).toNat ≤ ('Z').toNat
      rw [ht]
      show ¬ c.toNat + 32 ≤ 90
      omega
    rw [hz, Bool.and_false]

theorem pyLowerChar_allowed (c : Char) (h : allowedChar c = true) :
    allowedChar (pyLowerChar c) = true := by
  rcases hb : (charLe 'A' c && charLe c 'Z') with _ | _
  · rw [pyLowerChar_fix c hb]; exact h
  · have ht := toNat_pyLowerChar_upper c hb
    obtain ⟨h1, h2⟩ := Bool.and_eq_true_iff.mp hb
    have hA : 65 ≤ c.toNat := of_decide_eq_true h1
    have hZ : c.toNat ≤ 90 := of_decide_eq_true h2
    unfold allowedChar
    have hlo : charLe 'a' (pyLowerChar c) = true := by
      apply decide_eq_true
      show ('a').toNat ≤ (pyLowerChar c).toNat
      rw [ht]
      show 97 ≤ c.toNat + 32
      omega
    have hhi : charLe (pyLowerChar c) 'z' = true := by
      apply decide_eq_true
      show (pyLowerChar c).toNat ≤ ('z').toNat
      rw [ht]
      show c.toNat + 32 ≤ 122
      omega
    rw [hlo, hhi]
    simp

theorem keepAllowed_allowed (c : Char) : allowedChar (keepAllowed c) = true := by
  unfold keepAllowed
  rcases hb : allowedChar c with _ | _
  · rw [if_neg (by decide)]; decide
  · rw [if_pos rfl]; exact hb

/-! ## Lemmas about whitespace collapsing -/

/-- Adjacent characters are never both whitespace. -/
def notAdjSpace (a b : Char) : Prop := isPySpace a = false ∨ isPySpace b = false

theorem collapse_true_sp {d : Char} (ds : List Char) (hd : isPySpace d = true) :
    collapseWsAux true (d :: ds) = collapseWsAux true ds := by
  simp [collapseWsAux, hd]

theorem collapse_true_ns {d : Char} (ds : List Char) (hd : isPySpace d = false) :
    collapseWsAux true (d :: ds) = d :: collapseWsAux false ds := by
  simp [collapseWsAux, hd]

theorem collapse_false_sp {d : Char} (ds : List Char) (hd : isPySpace d = true) :
    collapseWsAux false (d :: ds) = ' ' :: collapseWsAux true ds := by
  simp [collapseWsAux, hd]

theorem collapse_false_ns {d : Char} (ds : List Char) (hd : isPySpace d = false) :
    collapseWsAux false (d :: ds) = d :: collapseWsAux false ds := by
  simp [collapseWsAux, hd]

theorem mem_collapseWsAux : ∀ (l : List Char) (b : Bool) (c : Char),
    c ∈ collapseWsAux b l → c = ' ' ∨ c ∈ l := by
  intro l
  induction l with
  | nil => intro b c h; cases b <;> cases h
  | cons d ds ih =>
    intro b c h
    rcases hd : isPySpace d with _ | _
    · have hh : c ∈ d :: collapseWsAux false ds := by
        cases b
        · rw [collapse_false_ns ds hd] at h; exact h
        · rw [collapse_true_ns ds hd] at h; exact h
      rcases List.mem_cons.mp hh with h1 | h1
      · right; rw [h1]; exact List.mem_cons_self d ds
      · rcases ih false c h1 with h2 | h2
        · left; exact h2
        · right; exact List.mem_cons_of_mem d h2
    · cases b
      · rw [collapse_false_sp ds hd] at h
        rcases List.mem_cons.mp h with h1 | h1
        · left; exact h1
        · rcases ih true c h1 with h2 | h2
          · left; exact h2
          · right; exact List.mem_cons_of_mem d h2
      · rw [collapse_true_sp ds hd] at h
        rcases ih true c h with h2 | h2
        · left; exact h2
        · right; exact List.mem_cons_of_mem d h2

theorem space_collapseWsAux : ∀ (l : List Char) (b : Bool) (c : Char),
    c ∈ collapseWsAux b l → isPySpace c = true → c = ' ' := by
  intro l
  induction l with
  | nil => intro b c h; cases b <;> cases h
  | cons d ds ih =>
    intro b c h hc
    rcases hd : isPySpace d with _ | _
    · have hh : c ∈ d :: collapseWsAux false ds := by
        cases b
        · rw [collapse_false_ns ds hd] at h; exact h
        · rw [collapse_true_ns ds hd] at h; exact h
      rcases List.mem_cons.mp hh with h1 | h1
      · rw [h1] at hc; rw [hd] at hc; cases hc
      · exact ih false c h1 hc
    · cases b
      · rw [collapse_false_sp ds hd] at h
        rcases List.mem_cons.mp h with h1 | h1
        · exact h1
        · exact ih true c h1 hc
      · rw [collapse_true_sp ds hd] at h
        exact ih true c h hc

theorem head_collapseWsAux_true : ∀ (l : List Char) (c : Char) (cs : List Char),
    collapseWsAux true l = c :: cs → isPySpace c = false := by
  intro l
  induction l with
  | nil => intro c cs h; cases h
  | cons d ds ih =>
    intro c cs h
    rcases hd : isPySpace d with _ | _
    · rw [collapse_true_ns ds hd] at h
      have : d = c := ((List.cons.injEq ..).mp h).1
      rw [← this]; exact hd
    · rw [collapse_true_sp ds hd] at h
      exact ih c cs h

theorem chain_collapseWsAux : ∀ (l : List Char) (b : Bool),
    List.Chain' notAdjSpace (collapseWsAux b l) := by
  intro l
  induction l with
  | nil => intro b; cases b <;> exact List.chain'_nil
  | cons d ds ih =>
    intro b
    rcases hd : isPySpace d with _ | _
    · have hgoal : List.Chain' notAdjSpace (d :: collapseWsAux false ds) :=
        List.chain'_cons'.mpr ⟨fun _ _ => Or.inl hd, ih false⟩
      cases b
      · rw [collapse_false_ns ds hd]; exact hgoal
      · rw [collapse_true_ns ds hd]; exact hgoal
    · cases b
      · rw [collapse_false_sp ds hd]
        refine List.chain'_cons'.mpr ⟨?_, ih true⟩
        intro y hy
        rcases hco : collapseWsAux true ds with _ | ⟨e, es⟩
        · rw [hco] at hy; cases hy
        · rw [hco] at hy
          have hy' : y = e := (Option.some.injEq ..).mp (Option.mem_def.mp hy).symm
          rw [hy']
          exact Or.inr (head_collapseWsAux_true ds e es hco)
      · rw [collapse_true_sp ds hd]
        exact ih true

theorem collapseWsAux_id : ∀ (l : List Char),
    (∀ c ∈ l, isPySpace c = true → c = ' ') →
    List.Chain' notAdjSpace l →
    collapseWsAux false l = l ∧
      ((∀ c ∈ l.head?, isPySpace c = false) → collapseWsAux true l = l) := by
  intro l
  induction l with
  | nil => intro _ _; exact ⟨rfl, fun _ => rfl⟩
  | cons d ds ih =>
    intro hsp hch
    have hch' : List.Chain' notAdjSpace ds := (List.chain'_cons'.mp hch).2
    have ihds := ih (fun c hc => hsp c (List.mem_cons_of_mem d hc)) hch'
    rcases hd : isPySpace d with _ | _
    · constructor
      · rw [collapse_false_ns ds hd, ihds.1]
      · intro _
        rw [collapse_true_ns ds hd, ihds.1]
    · have hdeq : d = ' ' := hsp d (List.mem_cons_self d ds) hd
      have htrue : collapseWsAux true ds = ds := by
        rcases hds : ds with _ | ⟨e, es⟩
        · rfl
        · rw [← hds]
          apply ihds.2
          intro c hc
          rw [hds] at hc
          have hc' : c = e := (Option.some.injEq ..).mp (Option.mem_def.mp hc).symm
          rw [hc']
          have hadj := (List.chain'_cons'.mp hch).1 e (by rw [hds]; rfl)
          rcases hadj with h1 | h1
          · rw [hd] at h1; cases h1
          · exact h1
      constructor
      · rw [collapse_false_sp ds hd, htrue, hdeq]
      · intro hhead
        have hcontra := hhead d rfl
        rw [hd] at hcontra
        cases hcontra

/-! ## Lemmas about stripping and mapping -/

theorem map_id_of_fixed {α : Type} (f : α → α) : ∀ (l : List α),
    (∀ c ∈ l, f c = c) → l.map f = l := by
  intro l
  induction l with
  | nil => intro _; rfl
  | cons d ds ih =>
    intro h
    show f d :: ds.map f = d :: ds
    rw [h d (List.mem_cons_self d ds), ih (fun c hc => h c (List.mem_cons_of_mem d hc))]

theorem head_dropWhile_false (p : Char → Bool) : ∀ (l : List Char) (c : Char) (cs : List Char),
    List.dropWhile p l = c :: cs → p c = false := by
  intro l
  induction l with
  | nil => intro c cs h; cases h
  | cons d ds ih =>
    intro c cs h
    rw [List.dropWhile_cons] at h
    rcases hp : p d with _ | _
    · rw [hp] at h
      simp only [Bool.false_eq_true, if_false] at h
      have : d = c := ((List.cons.injEq ..).mp h).1
      rw [← this]; exact hp
    · rw [hp] at h
      simp only [if_true] at h
      exact ih c cs h

theorem dropWhile_pyStrip (l : List Char) :
    (pyStrip l).dropWhile isPySpace = pyStrip l := by
  rcases ht : pyStrip l with _ | ⟨c, cs⟩
  · rfl
  · have hpre : pyStrip l <+: l.dropWhile isPySpace := List.rdropWhile_prefix _ _
    rw [ht] at hpre
    obtain ⟨w, hw⟩ := hpre
    have hc : isPySpace c = false :=
      head_dropWhile_false isPySpace l c (cs ++ w) hw.symm
    rw [List.dropWhile_cons, hc]
    simp

theorem pyStrip_idem (l : List Char) : pyStrip (pyStrip l) = pyStrip l := by
  show ((pyStrip l).dropWhile isPySpace).rdropWhile isPySpace = pyStrip l
  rw [dropWhile_pyStrip]
  show ((l.dropWhile isPySpace).rdropWhile isPySpace).rdropWhile isPySpace = pyStrip l
  rw [List.rdropWhile_idempotent]
  rfl

theorem pyStrip_within (l : List Char) : pyStrip l <:+: l := by
  have h1 : pyStrip l <+: l.dropWhile isPySpace := List.rdropWhile_prefix _ _
  have h2 : l.dropWhile isPySpace <:+ l := List.dropWhile_suffix _
  exact List.IsInfix.trans (List.IsPrefix.isInfix h1) (List.IsSuffix.isInfix h2)

theorem mem_pyStrip {c : Char} {l : List Char} (h : c ∈ pyStrip l) : c ∈ l :=
  (pyStrip_within l).sublist.subset h

/-! ## The cleaned text and its invariants -/

theorem cleanData_chars (l : List Char) :
    ∀ c ∈ cleanData l,
      allowedChar c = true ∧ pyLowerChar c = c ∧ (isPySpace c = true → c = ' ') := by
  intro c hc
  have hcol : c ∈ collapseWsAux false (((urlSub l).map keepAllowed).map pyLowerChar) :=
    mem_pyStrip hc
  have hsp : isPySpace c = true → c = ' ' :=
    space_collapseWsAux _ false c hcol
  rcases mem_collapseWsAux _ false c hcol with h | h
  · refine ⟨by rw [h]; decide, by rw [h]; decide, hsp⟩
  · obtain ⟨d, hd, rfl⟩ := List.mem_map.mp h
    obtain ⟨e, _, rfl⟩ := List.mem_map.mp hd
    exact ⟨pyLowerChar_allowed _ (keepAllowed_allowed e), pyLowerChar_idem _, hsp⟩

theorem cleanData_chain (l : List Char) : List.Chain' notAdjSpace (cleanData l) :=
  List.Chain'.infix (chain_collapseWsAux _ false) (pyStrip_within _)

/-- Cleaning a string whose URL pass is the identity on its own cleaned form
is idempotent at the character-list level. -/
theorem cleanData_idem (l : List Char) (h : urlSub (cleanData l) = cleanData l) :
    cleanData (cleanData l) = cleanData l := by
  have hchars := cleanData_chars l
  have hkeep : (cleanData l).map keepAllowed = cleanData l :=
    map_id_of_fixed keepAllowed _ (fun c hc => by
      unfold keepAllowed
      rw [if_pos (hchars c hc).1])
  have hlow : (cleanData l).map pyLowerChar = cleanData l :=
    map_id_of_fixed pyLowerChar _ (fun c hc => (hchars c hc).2.1)
  have hcol : collapseWsAux false (cleanData l) = cleanData l :=
    (collapseWsAux_id _ (fun c hc => (hchars c hc).2.2) (cleanData_chain l)).1
  show pyStrip (collapseWsAux false (((urlSub (cleanData l)).map keepAllowed).map pyLowerChar))
    = cleanData l
  rw [h, hkeep, hlow, hcol]
  exact pyStrip_idem _

/-! ## Claim C3 -/

/-- C3, amended: `clean_text` is idempotent on every string `s` for which
the URL-removal pass leaves `clean_text s` unchanged — in particular
whenever `clean_text s` contains no occurrence of `http` or `www.` followed
by a non-whitespace character.  Unrestricted idempotence fails: lowercasing
can create a fresh URL-pattern match (see the counterexample). -/
theorem clean_text_idem_of_urlSub_fixed (s : String)
    (h : urlSub (clean_text s).data = (clean_text s).data) :
    clean_text (clean_text s) = clean_text s :=
  congrArg String.mk (cleanData_idem s.data h)

/-- Witness for C3 at a concrete review text. -/
theorem clean_text_idem_witness :
    urlSub (clean_text "Great food!  Friendly staff.").data
        = (clean_text "Great food!  Friendly staff.").data ∧
    clean_text (clean_text "Great food!  Friendly staff.")
        = clean_text "Great food!  Friendly staff." :=
  ⟨by decide, clean_text_idem_of_urlSub_fixed _ (by decide)⟩

/-- C3 counterexample: `clean_text "HTTPX" = "httpx"`, but cleaning again
removes the now-lowercase URL-like prefix, giving `""`. -/
theorem clean_text_not_idem_cex :
    clean_text (clean_text "HTTPX") ≠ clean_text "HTTPX" := by
  rw [show clean_text "HTTPX" = "httpx" from by decide]
  decide

/-! ## Claim C4 -/

/-- C4 counterexample: the spec example drops the word `check`, but
`clean_text` keeps it. -/
theorem clean_text_example_cex :
    clean_text "Check http://x.co AMAZING!! 😊  service" ≠ "amazing!! service" := by
  decide

/-- C4, amended: on the spec's example input the cleaned text is
`"check amazing!! service"` (the leading word survives lowercased; only the
URL and the emoji are removed and whitespace is collapsed). -/
theorem clean_text_example_amended :
    clean_text "Check http://x.co AMAZING!! 😊  service" = "check amazing!! service" := by
  decide

/-! ## Claim C2 -/

/-- C2: whenever `json.loads` on the LLM text raises or returns a non-dict,
`extract_themes` returns exactly the fallback dict with empty positive and
negative lists and the original LLM text under `raw`; no exception
escapes (the embedding is total and takes the fallback branch). -/
theorem extract_themes_fallback (llm : String → String) (parse : String → Option PyVal)
    (df : Frame) (max_reviews : Nat)
    (h : ∀ kvs : PyDict,
      parse (llm (themesPrompt (joinedCleanText df max_reviews))) ≠ some (PyVal.dict kvs)) :
    extract_themes llm parse df max_reviews =
      PyVal.dict (PyDict.ofList
        [("positive", .list .nil), ("negative", .list .nil),
         ("raw", .str (llm (themesPrompt (joinedCleanText df max_reviews))))]) := by
  unfold extract_themes themes_of_raw
  rcases hp : parse (llm (themesPrompt (joinedCleanText df max_reviews))) with _ | v
  · rfl
  · cases v with
    | dict kvs => exact absurd hp (h kvs)
    | none => rfl
    | bool b => rfl
    | int n => rfl
    | str s => rfl
    | list xs => rfl

/-- Witness for C2: an LLM answering prose that does not parse as JSON. -/
theorem extract_themes_fallback_witness :
    extract_themes (fun _ => "Sorry, here are the themes!") (fun _ => Option.none) ⟨[], []⟩ 50 =
      PyVal.dict (PyDict.ofList
        [("positive", .list .nil), ("negative", .list .nil),
         ("raw", .str "Sorry, here are the themes!")]) :=
  extract_themes_fallback _ _ _ _ (fun _ hk => Option.noConfusion hk)

/-! ## Claim C6 -/

/-- C6: called without an api_key argument while the configured default key
is empty, the fetcher raises the configuration ValueError and performs zero
HTTP requests. -/
theorem fetch_missing_key (cfgKey : String) (http : List (String × String) → HttpResponse)
    (place_id hl : String) (h : cfgKey = "") :
    fetch_google_maps_reviews cfgKey http place_id Option.none hl =
      ⟨.error "ValueError: SERPAPI_API_KEY is not set. Please configure it in .env or config.py",
       0⟩ := by
  subst h
  rfl

/-- Witness for C6 with a live-looking http oracle that is never consulted. -/
theorem fetch_missing_key_witness :
    fetch_google_maps_reviews "" (fun _ => ⟨200, PyVal.dict .nil⟩) "some-place" Option.none "en" =
      ⟨.error "ValueError: SERPAPI_API_KEY is not set. Please configure it in .env or config.py",
       0⟩ :=
  fetch_missing_key _ _ _ _ rfl

/-! ## Claim C8 -/

/-- C8 counterexample: on the empty frame with no rating column (and no
sentiment column) `compute_basic_stats` raises `KeyError` at
`df["sentiment"]` instead of returning stats. -/
theorem compute_basic_stats_empty_cex :
    compute_basic_stats ⟨[], []⟩ = .error "KeyError: \x27sentiment\x27" := rfl

/-- C8, amended: on an empty collection with no rating column that does have
a sentiment column, `compute_basic_stats` returns total_reviews = 0,
avg_rating = None and an empty sentiment-count mapping without raising;
without a sentiment column it raises `KeyError`. -/
theorem compute_basic_stats_empty (df : Frame) (h1 : df.rows = [])
    (h2 : df.cols.contains "rating" = false)
    (h3 : df.cols.contains "sentiment" = true) :
    compute_basic_stats df = .ok ⟨0, AvgRating.none, []⟩ := by
  unfold compute_basic_stats
  rw [h2, h3]
  simp [colVals, h1, value_counts]

/-- Witness for C8 on the concrete empty sentiment-only frame. -/
theorem compute_basic_stats_empty_witness :
    compute_basic_stats ⟨["sentiment"], []⟩ = .ok ⟨0, AvgRating.none, []⟩ :=
  compute_basic_stats_empty _ rfl rfl rfl

/-! ## Column-append lemmas -/

theorem lookup_append_of_none {β : Type} (l₁ l₂ : List (String × β)) (key : String)
    (h : List.lookup key l₁ = Option.none) :
    List.lookup key (l₁ ++ l₂) = List.lookup key l₂ := by
  rw [List.lookup_append, h, Option.none_or]

theorem zip_append_col (key : String) :
    ∀ (rows : List (List (String × PyVal))) (f : List (String × PyVal) → PyVal),
    (∀ r ∈ rows, List.lookup key r = Option.none) →
    (List.zipWith (fun r v => r ++ [(key, v)]) rows (rows.map f)).map
      (fun r => rowGet r key) = rows.map f := by
  intro rows
  induction rows with
  | nil => intro f _; rfl
  | cons r rs ih =>
    intro f h
    have hhead : rowGet (r ++ [(key, f r)]) key = f r := by
      unfold rowGet
      rw [lookup_append_of_none r _ key (h r (List.mem_cons_self r rs))]
      rw [List.lookup_cons_self]
      rfl
    show rowGet (r ++ [(key, f r)]) key ::
        (List.zipWith (fun r v => r ++ [(key, v)]) rs (rs.map f)).map (fun r => rowGet r key)
      = f r :: rs.map f
    rw [hhead, ih f (fun x hx => h x (List.mem_cons_of_mem r hx))]

/-! ## Claim C5 -/

/-- C5 counterexample: `preprocess_reviews` applies `astype(str)` before
`clean_text`, so a `None` text cell becomes the string `"None"` and cleans
to `"none"`, not to the empty string. -/
theorem preprocess_none_cex :
    preprocess_reviews ⟨["text"], [[("text", PyVal.none)]]⟩ =
      .ok ⟨["text", "clean_text"],
           [[("text", PyVal.none), ("clean_text", PyVal.str "none")]]⟩ ∧
    PyVal.str "none" ≠ PyVal.str "" := ⟨rfl, by decide⟩

/-- C5, amended: for every record the added clean_text value is
`clean_text(str(v))` of the raw cell `v` — `astype(str)` coerces non-string
values to their Python string form first (None ↦ "None" ↦ "none",
5 ↦ "5"), so the `isinstance` guard of `clean_text` never yields `""` via
`preprocess_reviews`. -/
theorem preprocess_clean_text_col (df out : Frame)
    (hok : preprocess_reviews df = .ok out)
    (hfresh : df.cols.contains "clean_text" = false)
    (hrows : ∀ r ∈ df.rows, List.lookup "clean_text" r = Option.none) :
    colVals out "clean_text" =
      df.rows.map (fun r => PyVal.str (clean_text_py (PyVal.str (pyStr (rowGet r "text"))))) := by
  unfold preprocess_reviews at hok
  rcases ht : df.cols.contains "text" with _ | _
  · rw [ht] at hok
    simp at hok
  · rw [ht] at hok
    rw [if_pos rfl] at hok
    have hout := Except.ok.inj hok
    rw [← hout]
    unfold colVals setColumn
    rw [hfresh]
    simp only [Bool.false_eq_true, if_false]
    exact zip_append_col "clean_text" df.rows _ hrows

/-- Witness for C5: an integer text cell comes out as its decimal string. -/
theorem preprocess_clean_text_col_witness :
    colVals ⟨["text", "clean_text"], [[("text", PyVal.int 5), ("clean_text", PyVal.str "5")]]⟩
        "clean_text" = [PyVal.str "5"] :=
  (preprocess_clean_text_col ⟨["text"], [[("text", PyVal.int 5)]]⟩
    ⟨["text", "clean_text"], [[("text", PyVal.int 5), ("clean_text", PyVal.str "5")]]⟩
    rfl rfl (by decide)).trans rfl

/-! ## Claim C7 -/

/-- C7 counterexample: a provider response whose `reviews` field is the
truthy non-list `5` makes the fetch raise (`for rev in reviews` on an int)
instead of returning an empty collection. -/
theorem fetch_malformed_reviews_cex :
    fetch_google_maps_reviews "k"
      (fun _ => ⟨200, PyVal.dict (PyDict.ofList [("reviews", PyVal.int 5)])⟩)
      "place" Option.none "en" =
      ⟨.error "TypeError: object is not iterable", 1⟩ := rfl

/-- C7, amended: a provider JSON object whose `reviews` field is absent or
falsy (null, `[]`, `{}`, `""`, `0`) yields the empty frame with exactly the
columns author, rating, date, text, and no error; a *truthy* malformed
`reviews` value instead raises (see the counterexample). -/
theorem fetch_falsy_reviews_empty (cfgKey key place_id hl : String)
    (http : List (String × String) → HttpResponse) (status : Nat) (data : PyDict)
    (hkey : (key == "") = false)
    (hresp : http [("engine", "google_maps_reviews"), ("place_id", place_id),
                   ("hl", hl), ("api_key", key)] = ⟨status, PyVal.dict data⟩)
    (hstatus : status < 400)
    (hfalsy : pyTruthy (pyGet data "reviews" (PyVal.list .nil)) = false) :
    fetch_google_maps_reviews cfgKey http place_id (some key) hl =
      ⟨.ok ⟨reviewColumns, []⟩, 1⟩ := by
  unfold fetch_google_maps_reviews
  simp only [hkey, hresp, hfalsy, Bool.false_eq_true, if_false,
    show ¬ (400 ≤ status ∧ status < 600) from by omega]

/-- Witness for C7: a 200 response with `{"reviews": []}`. -/
theorem fetch_falsy_reviews_empty_witness :
    fetch_google_maps_reviews "cfg"
      (fun _ => ⟨200, PyVal.dict (PyDict.ofList [("reviews", PyVal.list .nil)])⟩)
      "place" (some "k") "en" =
      ⟨.ok ⟨reviewColumns, []⟩, 1⟩ :=
  fetch_falsy_reviews_empty "cfg" "k" "place" "en" _ 200 _ rfl rfl (by omega) rfl

/-! ## Claim C10 -/

/-- C10: `generate_recommendations` accepts every dict themes value (so
every possible output of `extract_themes`, which always returns a dict):
given the sentiment column it never raises, and when the `positive` /
`negative` keys are missing it builds its prompt with empty lists in their
place. -/
theorem generate_recommendations_defaults (llm : String → String) (df : Frame)
    (kvs : PyDict) (hsent : df.cols.contains "sentiment" = true) :
    (∃ s, generate_recommendations llm df (PyVal.dict kvs) = .ok s) ∧
    (PyDict.lookup kvs "positive" = Option.none →
     PyDict.lookup kvs "negative" = Option.none →
      generate_recommendations llm df (PyVal.dict kvs) =
        .ok (llm (recsPrompt df.rows.length (value_counts (colVals df "sentiment"))
          (PyVal.list .nil) (PyVal.list .nil)))) := by
  unfold generate_recommendations
  rw [hsent]
  constructor
  · exact ⟨_, rfl⟩
  · intro hp hn
    simp only [pyGet, hp, hn, if_true]

/-- Witness for C10: the empty themes dict on an empty sentiment-labeled
frame. -/
theorem generate_recommendations_defaults_witness :
    generate_recommendations id ⟨["sentiment"], []⟩ (PyVal.dict .nil) =
      .ok (recsPrompt 0 [] (PyVal.list .nil) (PyVal.list .nil)) :=
  (generate_recommendations_defaults id ⟨["sentiment"], []⟩ .nil rfl).2 rfl rfl

/-! ## Heap lemmas -/

theorem setColumn_contains_self (f : Frame) (name : String) (vals : List PyVal) :
    (setColumn f name vals).cols.contains name = true := by
  unfold setColumn
  rcases hc : f.cols.contains name with _ | _
  · simp only [Bool.false_eq_true, if_false]
    show (f.cols ++ [name]).contains name = true
    simp
  · simp only [if_true]
    exact hc

theorem setColumn_contains_mono (f : Frame) (name other : String) (vals : List PyVal)
    (h : f.cols.contains other = true) :
    (setColumn f name vals).cols.contains other = true := by
  unfold setColumn
  rcases hc : f.cols.contains name with _ | _
  · simp only [Bool.false_eq_true, if_false]
    show (f.cols ++ [name]).contains other = true
    simp at h ⊢
    exact Or.inl h
  · simp only [if_true]
    exact h

theorem runCopying_spec (body : Frame → Except String Frame) (h : Heap) (r : Nat)
    (hr : r < h.frames.length) (h' : Heap) (r' : Nat)
    (hok : runCopying body h r = .ok (h', r')) :
    h'.get r = h.get r ∧ r' = h.frames.length ∧
      ∃ f2, body (h.get r) = .ok f2 ∧ h'.get r' = f2 := by
  have hcopy : (⟨h.frames ++ [h.get r]⟩ : Heap).get h.frames.length = h.get r := by
    unfold Heap.get
    rw [List.getD_eq_getElem?_getD, List.getElem?_concat_length]
    rfl
  simp only [runCopying] at hok
  rw [hcopy] at hok
  cases hbody : body (h.get r) with
  | error e => rw [hbody] at hok; cases hok
  | ok f2 =>
    rw [hbody] at hok
    have hpair := Except.ok.inj hok
    have hh : (⟨(h.frames ++ [h.get r]).set h.frames.length f2⟩ : Heap) = h' :=
      congrArg Prod.fst hpair
    have hrr : h.frames.length = r' := congrArg Prod.snd hpair
    refine ⟨?_, hrr.symm, f2, rfl, ?_⟩
    · rw [← hh]
      unfold Heap.get
      rw [List.getD_eq_getElem?_getD,
        List.getElem?_set_ne (by omega),
        List.getElem?_append_left hr,
        ← List.getD_eq_getElem?_getD]
    · rw [← hh, ← hrr]
      unfold Heap.get
      rw [List.getD_eq_getElem?_getD,
        List.getElem?_set_self (by simp)]
      rfl

/-! ## Claim C9 -/

/-- C9, amended: neither step mutates its argument collection.  Both start
with `df = df.copy()`: on success the object passed in is unchanged (in
particular it does not acquire the new column), and a *different, freshly
copied* object carrying the added clean_text / sentiment column is
returned. -/
theorem pipeline_steps_do_not_mutate (h : Heap) (r : Nat)
    (classify : List PyVal → List (String × PyVal))
    (hr : r < h.frames.length) (h1 h2 : Heap) (r1 r2 : Nat) :
    (preprocess_reviews_st h r = .ok (h1, r1) →
      h1.get r = h.get r ∧ r1 ≠ r ∧ (h1.get r1).cols.contains "clean_text" = true) ∧
    (add_sentiment_st classify h r = .ok (h2, r2) →
      h2.get r = h.get r ∧ r2 ≠ r ∧ (h2.get r2).cols.contains "sentiment" = true) := by
  constructor
  · intro hok
    obtain ⟨hget, hrc, f2, hbody, hgot⟩ := runCopying_spec _ h r hr h1 r1 hok
    refine ⟨hget, by omega, ?_⟩
    rcases ht : (h.get r).cols.contains "text" with _ | _
    · unfold preprocess_reviews at hbody
      rw [ht] at hbody
      simp at hbody
    · unfold preprocess_reviews at hbody
      rw [ht, if_pos rfl] at hbody
      have hf2 := Except.ok.inj hbody
      rw [hgot, ← hf2]
      exact setColumn_contains_self _ _ _
  · intro hok
    obtain ⟨hget, hrc, f2, hbody, hgot⟩ := runCopying_spec _ h r hr h2 r2 hok
    refine ⟨hget, by omega, ?_⟩
    rcases ht : (h.get r).cols.contains "clean_text" with _ | _
    · unfold add_sentiment at hbody
      rw [ht] at hbody
      simp at hbody
    · unfold add_sentiment at hbody
      rw [ht, if_pos rfl] at hbody
      have hf2 := Except.ok.inj hbody
      rw [hgot, ← hf2]
      exact setColumn_contains_mono _ _ _ _ (setColumn_contains_self _ _ _)

/-- Witness for C9 on a one-frame heap. -/
theorem pipeline_steps_do_not_mutate_witness :
    ((⟨[⟨["text"], [[("text", PyVal.str "Nice!")]]⟩,
        ⟨["text", "clean_text"],
         [[("text", PyVal.str "Nice!"), ("clean_text", PyVal.str "nice!")]]⟩]⟩ : Heap).get 0
      = (⟨[⟨["text"], [[("text", PyVal.str "Nice!")]]⟩]⟩ : Heap).get 0) ∧
    (1 : Nat) ≠ 0 := by
  have hmain := (pipeline_steps_do_not_mutate
    ⟨[⟨["text"], [[("text", PyVal.str "Nice!")]]⟩]⟩ 0 (fun l => l.map (fun _ => ("POSITIVE", PyVal.int 1)))
    (by decide)
    ⟨[⟨["text"], [[("text", PyVal.str "Nice!")]]⟩,
      ⟨["text", "clean_text"],
       [[("text", PyVal.str "Nice!"), ("clean_text", PyVal.str "nice!")]]⟩]⟩
    ⟨[⟨["text"], [[("text", PyVal.str "Nice!")]]⟩,
      ⟨["text", "clean_text"],
       [[("text", PyVal.str "Nice!"), ("clean_text", PyVal.str "nice!")]]⟩]⟩ 1 1).1 rfl
  exact ⟨hmain.1, hmain.2.1⟩

/-- C9 counterexample: after `preprocess_reviews` runs, the collection
object that was passed in (heap slot 0) still has no clean_text field; the
field lives only on the returned copy (slot 1). -/
theorem preprocess_not_in_place_cex :
    preprocess_reviews_st ⟨[⟨["text"], [[("text", PyVal.str "Nice!")]]⟩]⟩ 0 =
      .ok (⟨[⟨["text"], [[("text", PyVal.str "Nice!")]]⟩,
             ⟨["text", "clean_text"],
              [[("text", PyVal.str "Nice!"), ("clean_text", PyVal.str "nice!")]]⟩]⟩, 1) ∧
    ((⟨["text"], [[("text", PyVal.str "Nice!")]]⟩ : Frame).cols.contains "clean_text") = false :=
  ⟨rfl, rfl⟩

/-! ## Claim C1 -/

theorem sent_zip : ∀ (rows : List (List (String × PyVal))) (sents : List (String × PyVal)),
    (∀ r ∈ rows, List.lookup "sentiment" r = Option.none) →
    (List.zipWith (fun r v => r ++ [("sentiment_score", v)])
      (List.zipWith (fun r v => r ++ [("sentiment", v)]) rows
        (sents.map (fun p => PyVal.str (map_label p.1))))
      (sents.map (fun p => p.2))).map (fun r => rowGet r "sentiment")
    = (rows.zip sents).map (fun p => PyVal.str (map_label p.2.1)) := by
  intro rows
  induction rows with
  | nil => intro sents _; cases sents <;> rfl
  | cons r rs ih =>
    intro sents h
    cases sents with
    | nil => rfl
    | cons s ss =>
      have hhead : rowGet ((r ++ [("sentiment", PyVal.str (map_label s.1))])
          ++ [("sentiment_score", s.2)]) "sentiment" = PyVal.str (map_label s.1) := by
        unfold rowGet
        rw [List.append_assoc]
        rw [lookup_append_of_none r _ "sentiment" (h r (List.mem_cons_self r rs))]
        rfl
      show rowGet ((r ++ [("sentiment", PyVal.str (map_label s.1))])
            ++ [("sentiment_score", s.2)]) "sentiment"
          :: (List.zipWith (fun r v => r ++ [("sentiment_score", v)])
              (List.zipWith (fun r v => r ++ [("sentiment", v)]) rs
                (ss.map (fun p => PyVal.str (map_label p.1))))
              (ss.map (fun p => p.2))).map (fun r => rowGet r "sentiment")
        = PyVal.str (map_label s.1) :: (rs.zip ss).map (fun p => PyVal.str (map_label p.2.1))
      rw [hhead, ih ss (fun x hx => h x (List.mem_cons_of_mem r hx))]

theorem add_sent_cols (df : Frame) (sents : List (String × PyVal))
    (h1 : df.cols.contains "sentiment" = false)
    (houter : (df.cols ++ ["sentiment"]).contains "sentiment_score" = false)
    (hrows : ∀ r ∈ df.rows, List.lookup "sentiment" r = Option.none) :
    colVals (setColumn (setColumn df "sentiment"
        (sents.map (fun p => PyVal.str (map_label p.1))))
      "sentiment_score" (sents.map (fun p => p.2))) "sentiment"
    = (df.rows.zip sents).map (fun p => PyVal.str (map_label p.2.1)) := by
  have hinner : setColumn df "sentiment" (sents.map (fun p => PyVal.str (map_label p.1)))
      = ⟨df.cols ++ ["sentiment"],
         List.zipWith (fun r v => r ++ [("sentiment", v)]) df.rows
           (sents.map (fun p => PyVal.str (map_label p.1)))⟩ := by
    unfold setColumn
    rw [h1]
    simp
  rw [hinner]
  unfold setColumn
  rw [houter]
  simp only [Bool.false_eq_true, if_false]
  exact sent_zip df.rows sents hrows

/-- C1: the record-level label mapping of `add_sentiment`.  The sentiment
column of the result holds, for every record, `map_label` of the raw model
label returned for it; and `map_label` maps a label whose lowercase form
contains `pos` to `positive`, else one containing `neg` to `negative`, and
anything else (such as `LABEL_1`) to `neutral`. -/
theorem add_sentiment_label_mapping (label : String)
    (classify : List PyVal → List (String × PyVal)) (df out : Frame)
    (hok : add_sentiment classify df = .ok out)
    (h1 : df.cols.contains "sentiment" = false)
    (h2 : df.cols.contains "sentiment_score" = false)
    (hrows : ∀ r ∈ df.rows, List.lookup "sentiment" r = Option.none) :
    colVals out "sentiment" =
      (df.rows.zip (classify (colVals df "clean_text"))).map
        (fun p => PyVal.str (map_label p.2.1)) ∧
    ("pos".data <:+: (pyLower label).data → map_label label = "positive") ∧
    (¬ ("pos".data <:+: (pyLower label).data) →
      "neg".data <:+: (pyLower label).data → map_label label = "negative") ∧
    (¬ ("pos".data <:+: (pyLower label).data) →
      ¬ ("neg".data <:+: (pyLower label).data) → map_label label = "neutral") := by
  have houter : (df.cols ++ ["sentiment"]).contains "sentiment_score" = false := by
    rw [List.contains_eq_any_beq, List.any_append]
    rw [List.contains_eq_any_beq] at h2
    rw [h2]
    rfl
  refine ⟨?_, ?_, ?_, ?_⟩
  · rcases hct : df.cols.contains "clean_text" with _ | _
    · unfold add_sentiment at hok
      rw [hct] at hok
      simp at hok
    · unfold add_sentiment at hok
      rw [hct, if_pos rfl] at hok
      have hout := Except.ok.inj hok
      rw [← hout]
      exact add_sent_cols df (classify (colVals df "clean_text")) h1 houter hrows
  · intro hin
    simp only [map_label, strContains]
    rw [decide_eq_true hin]
    rfl
  · intro hnp hin
    simp only [map_label, strContains]
    rw [decide_eq_false hnp]
    rw [if_neg (by decide), if_pos (decide_eq_true hin)]
  · intro hnp hnn
    simp only [map_label, strContains]
    rw [decide_eq_false hnp]
    rw [if_neg (by decide), if_neg (fun hc => hnn (of_decide_eq_true hc))]

/-- Witness for C1: concrete labels for all three branches, and the
sentiment column of one concrete classified frame. -/
theorem add_sentiment_label_mapping_witness :
    map_label "POSITIVE" = "positive" ∧ map_label "NEGATIVE" = "negative" ∧
    map_label "LABEL_1" = "neutral" ∧
    colVals ⟨["clean_text", "sentiment", "sentiment_score"],
      [[("clean_text", PyVal.str "good"), ("sentiment", PyVal.str "positive"),
        ("sentiment_score", PyVal.int 1)]]⟩ "sentiment" = [PyVal.str "positive"] := by
  have hpos := add_sentiment_label_mapping "POSITIVE"
      (fun l => l.map (fun _ => ("POSITIVE", PyVal.int 1)))
      ⟨["clean_text"], [[("clean_text", PyVal.str "good")]]⟩
      ⟨["clean_text", "sentiment", "sentiment_score"],
        [[("clean_text", PyVal.str "good"), ("sentiment", PyVal.str "positive"),
          ("sentiment_score", PyVal.int 1)]]⟩
      rfl rfl rfl (by decide)
  have hneg := add_sentiment_label_mapping "NEGATIVE"
      (fun l => l.map (fun _ => ("POSITIVE", PyVal.int 1)))
      ⟨["clean_text"], [[("clean_text", PyVal.str "good")]]⟩
      ⟨["clean_text", "sentiment", "sentiment_score"],
        [[("clean_text", PyVal.str "good"), ("sentiment", PyVal.str "positive"),
          ("sentiment_score", PyVal.int 1)]]⟩
      rfl rfl rfl (by decide)
  have hneu := add_sentiment_label_mapping "LABEL_1"
      (fun l => l.map (fun _ => ("POSITIVE", PyVal.int 1)))
      ⟨["clean_text"], [[("clean_text", PyVal.str "good")]]⟩
      ⟨["clean_text", "sentiment", "sentiment_score"],
        [[("clean_text", PyVal.str "good"), ("sentiment", PyVal.str "positive"),
          ("sentiment_score", PyVal.int 1)]]⟩
      rfl rfl rfl (by decide)
  exact ⟨hpos.2.1 (by decide), hneg.2.2.1 (by decide) (by decide),
    hneu.2.2.2 (by decide) (by decide), hpos.1.trans rfl⟩

end BRIA
